import Mathlib

/-
Shallow embedding of src/tools/arisa/src/crawler.py.

The crawler fetches a seed page, enumerates anchors whose href matches a
site-specific pattern, deduplicates raw hrefs against a visited set,
fetches and extracts each new page (title text, body text, image hrefs),
and downloads the accumulated image URLs.

Collaborators are modelled as function parameters:
  * http : String -> HttpResp  models requests.get: either the request
    raises (HttpResp.exn, covering requests.exceptions.RequestException)
    or the HTTP layer delivers a response with a status code and body text.
  * ph : String -> Doc  models BeautifulSoup(text, html.parser): parsing
    a body text into a document.

A parsed document (BeautifulSoup object) is modelled by what the code
consumes from it: `selects sel` gives the get_text() strings of the
elements matching a selector, in document order, and `anchors` gives the
value of the href attribute of each anchor element, in document order
(none when the anchor has no href attribute).

Side effects (time.sleep, page fetches, visited-set insertions, image
downloads) are reified as an event trace (`Ev`), so temporal claims
become statements about traces.  Python exceptions escaping a function
are modelled with `PyErr`.
-/

/-- Result delivered by the HTTP client for one GET: either the request
raised a transport-level exception, or a response (any status) arrived. -/
inductive HttpResp where
  | exn : HttpResp
  | resp (status : Nat) (text : String) : HttpResp
deriving DecidableEq

/-- Python exceptions escaping the modelled functions. -/
inductive PyErr where
  | attributeError : PyErr
  | requestError : PyErr
deriving DecidableEq

/-- Parsed document: what the code consumes from a BeautifulSoup object. -/
structure Doc where
  selects : String → List String
  anchors : List (Option String)

/-- Observable events of a run, in order. `link h` is the loop reading the
raw href `h` of a pattern-matched anchor; `visit h` is the insertion of the
raw href into the visited set; `fetch h r` is a page-fetch attempt for raw
href `h` at resolved URL `r`; `dl i p` is the download and write of image
`p` as file `i`.png; `pause` is a one-second time.sleep. -/
inductive Ev where
  | link (href : String) : Ev
  | visit (href : String) : Ev
  | fetch (href : String) (resolved : String) : Ev
  | dl (i : Nat) (path : String) : Ev
  | pause : Ev
deriving DecidableEq

/-- Website: site description (crawler.py, class Website). -/
structure Website where
  name : String
  url : String
  target_pattern : String → Bool
  absolute_url : Bool
  title_tag : String
  body_tag : String

/-- Content: extracted page record (crawler.py, class Content); producing
one models the content.print() report. -/
structure Content where
  url : String
  title : String
  body : String
  img : Finset String

/-- Crawler.get_page: GET the URL; on RequestException return None,
otherwise parse the response text (whatever the status code). -/
def get_page (http : String → HttpResp) (ph : String → Doc) (url : String) : Option Doc :=
  match http url with
  | HttpResp.exn => none
  | HttpResp.resp _ text => some (ph text)

/-- Crawler.safe_get: texts of the elements matching the selector joined
by a newline; empty string when no element matches. -/
def safe_get (page_obj : Doc) (selector : String) : String :=
  let selected_elems := page_obj.selects selector
  if 0 < selected_elems.length then
    String.intercalate "\n" selected_elems
  else
    ""

/-- Decision procedure for the substring "png" over a character list. -/
def pngSub : List Char → Bool
  | 'p' :: 'n' :: 'g' :: _ => true
  | _ :: rest => pngSub rest
  | [] => false

/-- Semantics of bs4 matching an href attribute against the compiled
pattern `.*png` (crawler.py line 143): bs4 applies pattern.search, and
searching `.*png` succeeds exactly when "png" occurs as a substring. -/
def strContainsPng (s : String) : Bool := pngSub s.data

/-- bs.find_all of anchors whose href attribute matches `.*png`
(crawler.py line 143), followed by reading each matching anchor's href:
anchors lacking an href attribute never match an attribute filter. -/
def find_all_png (d : Doc) : List String :=
  (d.anchors.filterMap id).filter strContainsPng

/-- Per-page discovered image set (crawler.py line 144): the hrefs of the
`.*png`-matching anchors, gathered into a set. -/
def imagesOf (d : Doc) : Finset String := (find_all_png d).toFinset

/-- Crawler.parse: fetch the URL; if a document came back, read title and
body via safe_get, union the page's discovered image hrefs into the
accumulated image set, and report a Content exactly when both title and
body are non-empty.  Returns the new accumulated image set and the
reported Content, if any. -/
def parse (http : String → HttpResp) (ph : String → Doc) (site : Website)
    (images_path : Finset String) (url : String) : Finset String × Option Content :=
  match get_page http ph url with
  | none => (images_path, none)
  | some bs =>
    let title := safe_get bs site.title_tag
    let body := safe_get bs site.body_tag
    let images' := images_path ∪ imagesOf bs
    if title ≠ "" ∧ body ≠ "" then
      (images', some ⟨url, title, body, imagesOf bs⟩)
    else
      (images', none)

/-- Append a pause event in front of the continuation trace when the
throttle condition fired. -/
def withPause (b : Bool) (tr : List Ev) : List Ev :=
  if b then Ev.pause :: tr else tr

/-- The for-loop of Crawler.crawl (crawler.py lines 159-173), over the
raw hrefs of the pattern-matched anchors, threading the visited set, the
accumulated image set and the local counter, and emitting the event
trace.  An unvisited raw href is inserted into `visited`, resolved
(prepend site.url unless absolute_url), and parsed; the counter is
incremented every iteration and a pause fires whenever it reaches a
multiple of 10. -/
def crawlLoop (http : String → HttpResp) (ph : String → Doc) (site : Website) :
    Finset String → Finset String → Nat → List String →
      Finset String × Finset String × List Ev
  | visited, images, _, [] => (visited, images, [])
  | visited, images, count, href :: rest =>
    if href ∈ visited then
      let out := crawlLoop http ph site visited images (count + 1) rest
      (out.1, out.2.1, Ev.link href :: withPause ((count + 1) % 10 == 0) out.2.2)
    else
      let resolved := if site.absolute_url then href else site.url ++ href
      let images' := (parse http ph site images resolved).1
      let out := crawlLoop http ph site (insert href visited) images' (count + 1) rest
      (out.1, out.2.1,
        Ev.link href :: Ev.visit href :: Ev.fetch href resolved ::
          withPause ((count + 1) % 10 == 0) out.2.2)

/-- Crawler.crawl (crawler.py lines 151-173): fetch the seed page; the
code calls bs.find_all unconditionally, so when get_page returned None an
AttributeError escapes.  Otherwise enumerate the anchors whose href
matches the target pattern and run the crawl loop from the instance state
with the local counter at 0. -/
def crawl (http : String → HttpResp) (ph : String → Doc) (site : Website)
    (visited images : Finset String) :
    Except PyErr (Finset String × Finset String × List Ev) :=
  match get_page http ph site.url with
  | none => Except.error PyErr.attributeError
  | some bs =>
    let target_pages := (bs.anchors.filterMap id).filter site.target_pattern
    Except.ok (crawlLoop http ph site visited images 0 target_pages)

/-- The for-loop of Crawler.img_download (crawler.py lines 119-126) over
the enumerated image paths, starting at enumeration index `i`: a GET that
raises aborts the whole loop with the escaping exception (there is no
handler); otherwise the image is written as `i`.png and a pause fires
whenever i is a multiple of 10. -/
def imgLoop (http : String → HttpResp) : Nat → List String → List Ev × Option PyErr
  | _, [] => ([], none)
  | i, path :: rest =>
    match http path with
    | HttpResp.exn => ([], some PyErr.requestError)
    | HttpResp.resp _ _ =>
      let out := imgLoop http (i + 1) rest
      (Ev.dl i path :: withPause (i % 10 == 0) out.1, out.2)

/-- Crawler.img_download: iterate the image paths from index 0. -/
def img_download (http : String → HttpResp) (paths : List String) :
    List Ev × Option PyErr :=
  imgLoop http 0 paths

/-- Event predicates. -/
def isLinkEv : Ev → Bool
  | Ev.link _ => true
  | _ => false

def isFetchEv : Ev → Bool
  | Ev.fetch _ _ => true
  | _ => false

def isDlEv : Ev → Bool
  | Ev.dl _ _ => true
  | _ => false

def isPauseEv : Ev → Bool
  | Ev.pause => true
  | _ => false

/-- Recognise the insertion of raw href `h` into the visited set. -/
def visitOf (h : String) : Ev → Bool
  | Ev.visit h' => h' == h
  | _ => false

/-- Recognise a page-fetch attempt for raw href `h`. -/
def fetchOf (h : String) : Ev → Bool
  | Ev.fetch h' _ => h' == h
  | _ => false

/-- Project the raw href out of a link event. -/
def linkOf : Ev → Option String
  | Ev.link h => some h
  | _ => none

/-- Scan a trace checking that no fetch for raw href `h` occurs before a
visited-set insertion of `h`; `seen` records whether the insertion has
already happened. -/
def visitBeforeFetch (h : String) : Bool → List Ev → Bool
  | _, [] => true
  | seen, Ev.visit h' :: r => visitBeforeFetch h (seen || h' == h) r
  | seen, Ev.fetch h' _ :: r => (h' != h || seen) && visitBeforeFetch h seen r
  | seen, _ :: r => visitBeforeFetch h seen r

/-- Throttle-cadence checker, post-increment style: walking the trace
with `c` events counted so far, a pause is owed exactly after a counted
event whose 1-based ordinal is a positive multiple of 10, must occur
before the next counted event (or the end of the trace), and may occur
nowhere else. -/
def throttleOk (isCnt : Ev → Bool) : Nat → Bool → List Ev → Bool
  | _, owed, [] => !owed
  | c, owed, Ev.pause :: r => owed && throttleOk isCnt c false r
  | c, owed, e :: r =>
    if isCnt e then
      !owed && throttleOk isCnt (c + 1) ((c + 1) % 10 == 0) r
    else
      throttleOk isCnt c owed r

/-- Throttle-cadence checker, 0-based-index style: a pause is owed exactly
after a counted event whose 0-based index is a multiple of 10 (the first,
eleventh, twenty-first, ...). -/
def throttleIdxOk (isCnt : Ev → Bool) : Nat → Bool → List Ev → Bool
  | _, owed, [] => !owed
  | c, owed, Ev.pause :: r => owed && throttleIdxOk isCnt c false r
  | c, owed, e :: r =>
    if isCnt e then
      !owed && throttleIdxOk isCnt (c + 1) (c % 10 == 0) r
    else
      throttleIdxOk isCnt c owed r

/-- Image set a fetch of `url` contributes: the per-page discovery when a
document comes back, nothing when the fetch fails. -/
def pageImgs (http : String → HttpResp) (ph : String → Doc) (url : String) : Finset String :=
  match get_page http ph url with
  | none => ∅
  | some d => imagesOf d

/-- Union of the per-page image discoveries of all fetch attempts in a
trace. -/
def traceImgs (http : String → HttpResp) (ph : String → Doc) : List Ev → Finset String
  | [] => ∅
  | Ev.fetch _ r :: rest => pageImgs http ph r ∪ traceImgs http ph rest
  | _ :: rest => traceImgs http ph rest

/-- Decision procedure for a ".png" character-list suffix. -/
def dotPngSfx : List Char → Bool
  | ['.', 'p', 'n', 'g'] => true
  | _ :: rest => dotPngSfx rest
  | [] => false

/-- Image-collection rule as the specification words it, for comparison
with `imagesOf`.  Modelled from the spec: anchors whose href matches
`.*\.png` as a case-sensitive suffix match, i.e. the href ends in the
literal four characters ".png". -/
def endsWithDotPng (s : String) : Bool := dotPngSfx s.data

/-- Spec-side image discovery (suffix match), to be compared with the
source-side `imagesOf`. -/
def specImagesOf (d : Doc) : Finset String :=
  ((d.anchors.filterMap id).filter endsWithDotPng).toFinset

/-
Concrete inputs used by witnesses and counterexamples.
-/

/-- Seed page with ten pattern-matched anchors all carrying the same raw
href "a". -/
def exSeedDoc10 : Doc := ⟨fun _ => [], List.replicate 10 (some "a")⟩

/-- Seed page with two identical anchors. -/
def exSeedDoc2 : Doc := ⟨fun _ => [], [some "a", some "a"]⟩

/-- HTTP layer where only the seed URL "seed" responds. -/
def exHttp10 : String → HttpResp :=
  fun u => if u = "seed" then HttpResp.resp 200 "S" else HttpResp.exn

/-- Parser producing the ten-anchor seed page for any body. -/
def exPh10 : String → Doc := fun _ => exSeedDoc10

/-- Parser producing the two-anchor seed page for any body. -/
def exPh2 : String → Doc := fun _ => exSeedDoc2

/-- Site with seed URL "seed", absolute links, matching every href. -/
def exSiteAbs : Website := ⟨"n", "seed", fun _ => true, true, "t", "b"⟩

/-- Trace of crawling `exSeedDoc10`: one fetch for "a", nine skipped
re-occurrences, one pause after the tenth enumerated link. -/
def exTr10 : List Ev :=
  [Ev.link "a", Ev.visit "a", Ev.fetch "a" "a", Ev.link "a", Ev.link "a",
    Ev.link "a", Ev.link "a", Ev.link "a", Ev.link "a", Ev.link "a",
    Ev.link "a", Ev.link "a", Ev.pause]

/-- Trace of crawling `exSeedDoc2`. -/
def exTr2 : List Ev := [Ev.link "a", Ev.visit "a", Ev.fetch "a" "a", Ev.link "a"]

/-- Document whose only anchor href contains "png" without ending in
".png". -/
def exDoc4 : Doc := ⟨fun _ => [], [some "xpng.html"]⟩

/-- Document with no matching elements for any selector. -/
def exDocEmpty : Doc := ⟨fun _ => [], []⟩

/-- Document whose selector "t" yields the single text "T" and whose only
anchor is an image link. -/
def exDoc5 : Doc := ⟨fun s => if s = "t" then ["T"] else [], [some "i.png"]⟩

/-- HTTP layer delivering body "X" for every URL. -/
def exHttpOkAll : String → HttpResp := fun _ => HttpResp.resp 200 "X"

/-- HTTP layer delivering a 404 response for every URL. -/
def exHttp404 : String → HttpResp := fun _ => HttpResp.resp 404 "notfound"

/-- HTTP layer raising on every URL. -/
def exHttpExn : String → HttpResp := fun _ => HttpResp.exn

/-- HTTP layer raising exactly on the image URL "b". -/
def exHttpB : String → HttpResp :=
  fun u => if u = "b" then HttpResp.exn else HttpResp.resp 200 "ok"

/-- Parser producing `exDoc5` for any body. -/
def exPh5 : String → Doc := fun _ => exDoc5

/-- Parser producing the empty document for any body. -/
def exPhEmpty : String → Doc := fun _ => exDocEmpty

/-- Site whose title and body selectors are both "t". -/
def exSite5 : Website := ⟨"n", "seed", fun _ => true, true, "t", "t"⟩

/-
Helper lemmas.
-/

theorem countP_withPause (p : Ev → Bool) (hp : p Ev.pause = false) (b : Bool) (tr : List Ev) :
    List.countP p (withPause b tr) = List.countP p tr := by
  cases b <;> simp [withPause, List.countP_cons, hp]

theorem filterMap_withPause {α : Type} (f : Ev → Option α) (hf : f Ev.pause = none)
    (b : Bool) (tr : List Ev) :
    List.filterMap f (withPause b tr) = List.filterMap f tr := by
  cases b <;> simp [withPause, List.filterMap_cons, hf]

theorem visitBeforeFetch_withPause (h : String) (s b : Bool) (tr : List Ev) :
    visitBeforeFetch h s (withPause b tr) = visitBeforeFetch h s tr := by
  cases b <;> rfl

theorem traceImgs_withPause (http : String → HttpResp) (ph : String → Doc)
    (b : Bool) (tr : List Ev) :
    traceImgs http ph (withPause b tr) = traceImgs http ph tr := by
  cases b <;> rfl

/-
C9: safe_get.
-/

/-- C9: for every parsed document and every selector, safe_get returns
the text of all elements matching the selector joined by newline in
document order, and returns the empty string when zero elements match;
being a total function it never fails for a missing selector. -/
theorem safe_get_join_or_empty (d : Doc) (sel : String) :
    safe_get d sel = String.intercalate "\n" (d.selects sel) ∧
      (d.selects sel = [] → safe_get d sel = "") := by
  constructor
  · unfold safe_get
    cases h : d.selects sel with
    | nil => simp [h]; rfl
    | cons a as => simp [h]
  · intro h
    unfold safe_get
    simp [h]

/-- Witness for C9: on a document where the selector matches zero
elements, safe_get returns the empty string. -/
theorem safe_get_join_or_empty_witness : safe_get exDocEmpty "missing" = "" :=
  (safe_get_join_or_empty exDocEmpty "missing").2 rfl

/-
C10: get_page.
-/

/-- C10: get_page returns its failure value (None) exactly when the HTTP
request raised a transport-level error; any delivered response, whatever
its status code, is parsed into a document. -/
theorem get_page_failure_iff_exn (http : String → HttpResp) (ph : String → Doc)
    (url : String) :
    (get_page http ph url = none ↔ http url = HttpResp.exn) ∧
      (∀ s t, http url = HttpResp.resp s t → get_page http ph url = some (ph t)) := by
  constructor
  · unfold get_page
    cases h : http url <;> simp [h]
  · intro s t h
    unfold get_page
    rw [h]

/-- Witness for C10: a 404 response still yields a parsed document. -/
theorem get_page_failure_iff_exn_witness :
    get_page exHttp404 exPhEmpty "u" = some (exPhEmpty "notfound") :=
  (get_page_failure_iff_exn exHttp404 exPhEmpty "u").2 404 "notfound" rfl

/-
C2: crawl on seed-fetch failure.
-/

/-- C2 (code behavior at the failing input): when the seed-page GET
raises a transport error, get_page returns None and crawl dereferences it
with find_all, so an AttributeError escapes to the caller instead of the
clean zero-result termination the specification claims. -/
theorem crawl_seed_failure_raises (http : String → HttpResp) (ph : String → Doc)
    (site : Website) (v i : Finset String) (h : http site.url = HttpResp.exn) :
    crawl http ph site v i = Except.error PyErr.attributeError := by
  unfold crawl get_page
  rw [h]

/-- Witness for C2: a concrete run whose seed fetch raises ends in the
escaping AttributeError. -/
theorem crawl_seed_failure_raises_witness :
    crawl exHttpExn exPhEmpty exSiteAbs ∅ ∅ = Except.error PyErr.attributeError :=
  crawl_seed_failure_raises exHttpExn exPhEmpty exSiteAbs ∅ ∅ rfl

/-
C4: image discovery rule.
-/

/-- Counterexample for C4: on a document whose only anchor href is
"xpng.html", the code collects the href (the pattern `.*png` searched by
bs4 is a substring test) although it does not end in ".png", so the
collected set differs from the suffix-match set the claim describes. -/
theorem imagesOf_suffix_counterexample :
    imagesOf exDoc4 ≠ specImagesOf exDoc4 ∧ imagesOf exDoc4 = {"xpng.html"} := by
  constructor
  · decide
  · rfl

/-- C4 (amended): image discovery collects exactly the href values of
anchors possessing an href that contains "png" as a case-sensitive
substring (the pattern `.*png` under regex search), duplicates collapsed
into a set; this is a superset of the ".png"-suffix matches the claim
describes. -/
theorem imagesOf_mem_iff (d : Doc) (h : String) :
    h ∈ imagesOf d ↔ some h ∈ d.anchors ∧ strContainsPng h = true := by
  unfold imagesOf find_all_png
  simp [List.mem_toFinset, List.mem_filter, List.mem_filterMap]

/-
C5: extraction gate and image accumulation.
-/

/-- C5: for every successfully fetched and parsed page, a Content record
is reported exactly when both the title selector and the body selector
yield non-empty text; a page failing the gate reports nothing and raises
nothing, yet its discovered image hrefs are still unioned into the
accumulated session image set. -/
theorem parse_gate_and_images (http : String → HttpResp) (ph : String → Doc)
    (site : Website) (images : Finset String) (url : String) (d : Doc)
    (h : get_page http ph url = some d) :
    ((parse http ph site images url).2.isSome = true ↔
      (safe_get d site.title_tag ≠ "" ∧ safe_get d site.body_tag ≠ "")) ∧
      (parse http ph site images url).1 = images ∪ imagesOf d := by
  unfold parse
  rw [h]
  by_cases hc : safe_get d site.title_tag ≠ "" ∧ safe_get d site.body_tag ≠ ""
  · simp [hc]
  · simp [hc]

/-- Witness for C5: a page whose selectors both yield "T" reports a
Content, and its image href "i.png" lands in the accumulated set. -/
theorem parse_gate_and_images_witness :
    ((parse exHttpOkAll exPh5 exSite5 ∅ "u").2.isSome = true ↔
      (safe_get exDoc5 exSite5.title_tag ≠ "" ∧ safe_get exDoc5 exSite5.body_tag ≠ "")) ∧
      (parse exHttpOkAll exPh5 exSite5 ∅ "u").1 = ∅ ∪ imagesOf exDoc5 :=
  parse_gate_and_images exHttpOkAll exPh5 exSite5 ∅ "u" exDoc5 rfl

/-
C6: image download failure handling.
-/

/-- Counterexample for C6: with an HTTP layer that raises only for "b",
downloading ["b", "g"] aborts immediately with the escaping exception and
downloads nothing, although the fetch of "g" would have succeeded; a
failed image fetch is not a contained per-item error. -/
theorem img_download_abort_counterexample :
    img_download exHttpB ["b", "g"] = ([], some PyErr.requestError) ∧
      exHttpB "g" = HttpResp.resp 200 "ok" := by
  exact ⟨rfl, rfl⟩

/-- C6 (amended): the first image URL whose GET raises aborts the whole
download loop with the escaping exception; the images after it are never
attempted. -/
theorem imgLoop_failure_aborts (http : String → HttpResp) (c : Nat) (p : String)
    (rest : List String) (h : http p = HttpResp.exn) :
    imgLoop http c (p :: rest) = ([], some PyErr.requestError) := by
  unfold imgLoop
  rw [h]

/-- Witness for C6 (amended): the concrete aborting run. -/
theorem imgLoop_failure_aborts_witness :
    imgLoop exHttpB 0 ["b", "g"] = ([], some PyErr.requestError) :=
  imgLoop_failure_aborts exHttpB 0 "b" ["g"] rfl

/-
C7: image download throttle cadence.
-/

/-- Counterexample for C7: a single successful download is followed by a
pause (the 0-based enumeration index 0 satisfies i % 10 == 0), violating
the claimed crawler cadence in which downloads 1 through 9 are not
followed by a pause. -/
theorem img_download_throttle_counterexample :
    throttleOk isDlEv 0 false (img_download exHttpOkAll ["g"]).1 = false ∧
      List.countP isDlEv (img_download exHttpOkAll ["g"]).1 = 1 := by
  exact ⟨rfl, rfl⟩

/-- Helper for C7: the download loop from enumeration index c pauses
exactly after the downloads whose 0-based index is a multiple of 10. -/
theorem imgLoop_throttle_idx (http : String → HttpResp) :
    ∀ (paths : List String) (c : Nat),
      throttleIdxOk isDlEv c false (imgLoop http c paths).1 = true := by
  intro paths
  induction paths with
  | nil => intro c; rfl
  | cons p rest ih =>
    intro c
    unfold imgLoop
    cases h : http p with
    | exn => rfl
    | resp s t =>
      by_cases hc : c % 10 == 0
      · simp [throttleIdxOk, isDlEv, withPause, hc, ih (c + 1)]
      · simp [throttleIdxOk, isDlEv, withPause, hc, ih (c + 1)]

/-- C7 (amended): in every download run the pauses come exactly after the
downloads whose 0-based enumeration index is a multiple of 10 — after the
1st, 11th, 21st download — a cadence shifted from the crawler's pause
after the 10th, 20th, 30th link. -/
theorem img_download_throttle_cadence (http : String → HttpResp) (paths : List String) :
    throttleIdxOk isDlEv 0 false (img_download http paths).1 = true :=
  imgLoop_throttle_idx http paths 0

/-
C3: crawl throttle cadence.
-/

/-- Counterexample for C3: a seed page carrying ten anchors with the same
raw href produces exactly one processed (fetched) link, yet the run
pauses after the tenth enumerated anchor, so the pause does not align
with multiples of ten processed links as the claim states. -/
theorem crawl_throttle_counterexample :
    crawl exHttp10 exPh10 exSiteAbs ∅ ∅ = Except.ok (insert "a" ∅, ∅, exTr10) ∧
      List.countP isFetchEv exTr10 = 1 ∧
      List.countP isPauseEv exTr10 = 1 ∧
      throttleOk isFetchEv 0 false exTr10 = false := by
  exact ⟨rfl, rfl, rfl, rfl⟩

/-- Helper for C3: the crawl loop entered with counter c pauses exactly
after the iterations that bring the counter to a multiple of 10, counting
every enumerated link whether or not it was skipped as visited. -/
theorem crawlLoop_throttle (http : String → HttpResp) (ph : String → Doc) (site : Website) :
    ∀ (hrefs : List String) (v i : Finset String) (c : Nat),
      throttleOk isLinkEv c false (crawlLoop http ph site v i c hrefs).2.2 = true := by
  intro hrefs
  induction hrefs with
  | nil => intro v i c; rfl
  | cons href rest ih =>
    intro v i c
    by_cases hmem : href ∈ v
    · by_cases hc : (c + 1) % 10 == 0
      · simp [crawlLoop, hmem, throttleOk, isLinkEv, withPause, hc, ih]
      · simp [crawlLoop, hmem, throttleOk, isLinkEv, withPause, hc, ih]
    · by_cases hc : (c + 1) % 10 == 0
      · simp [crawlLoop, hmem, throttleOk, isLinkEv, withPause, hc, ih]
      · simp [crawlLoop, hmem, throttleOk, isLinkEv, withPause, hc, ih]

/-- C3 (amended): in every execution of the crawl loop a 1-second pause
occurs exactly once per 10 enumerated links — it follows enumerated link
number 10, 20, 30, ... counting every anchor the loop iterates over,
including those skipped by the visited check; pauses do not track the
fetched-link ordinal the claim describes. -/
theorem crawl_throttle_per_enumerated_link (http : String → HttpResp) (ph : String → Doc)
    (site : Website) (v i : Finset String) (hrefs : List String) :
    throttleOk isLinkEv 0 false (crawlLoop http ph site v i 0 hrefs).2.2 = true :=
  crawlLoop_throttle http ph site hrefs v i 0

/-
C1: visited-set invariants of the crawl loop.
-/

/-- Helper for C1: a raw href already in the visited set is never
inserted again and never fetched by the loop. -/
theorem crawlLoop_visited_zero (http : String → HttpResp) (ph : String → Doc)
    (site : Website) (h : String) :
    ∀ (hrefs : List String) (v i : Finset String) (c : Nat), h ∈ v →
      List.countP (visitOf h) (crawlLoop http ph site v i c hrefs).2.2 = 0 ∧
      List.countP (fetchOf h) (crawlLoop http ph site v i c hrefs).2.2 = 0 := by
  intro hrefs
  induction hrefs with
  | nil => intro v i c hv; simp [crawlLoop]
  | cons href rest ih =>
    intro v i c hv
    by_cases hmem : href ∈ v
    · have hrec := ih v i (c + 1) hv
      constructor
      · simp [crawlLoop, hmem, List.countP_cons, countP_withPause, visitOf, hrec.1]
      · simp [crawlLoop, hmem, List.countP_cons, countP_withPause, fetchOf, hrec.2]
    · have hne : href ≠ h := fun e => hmem (e ▸ hv)
      have hrec := ih (insert href v) (parse http ph site i
        (if site.absolute_url then href else site.url ++ href)).1 (c + 1)
        (Finset.mem_insert_of_mem hv)
      constructor
      · simp [crawlLoop, hmem, List.countP_cons, countP_withPause, visitOf, fetchOf,
          hne, hrec.1]
      · simp [crawlLoop, hmem, List.countP_cons, countP_withPause, visitOf, fetchOf,
          hne, hrec.2]

/-- Helper for C1: the loop inserts each raw href into the visited set at
most once and attempts at most one page fetch for it. -/
theorem crawlLoop_counts_le_one (http : String → HttpResp) (ph : String → Doc)
    (site : Website) (h : String) :
    ∀ (hrefs : List String) (v i : Finset String) (c : Nat),
      List.countP (visitOf h) (crawlLoop http ph site v i c hrefs).2.2 ≤ 1 ∧
      List.countP (fetchOf h) (crawlLoop http ph site v i c hrefs).2.2 ≤ 1 := by
  intro hrefs
  induction hrefs with
  | nil => intro v i c; simp [crawlLoop]
  | cons href rest ih =>
    intro v i c
    by_cases hmem : href ∈ v
    · have hrec := ih v i (c + 1)
      constructor
      · simp [crawlLoop, hmem, List.countP_cons, countP_withPause, visitOf, hrec.1]
      · simp [crawlLoop, hmem, List.countP_cons, countP_withPause, fetchOf, hrec.2]
    · by_cases heq : href = h
      · subst heq
        have hz := crawlLoop_visited_zero http ph site href rest (insert href v)
          (parse http ph site i (if site.absolute_url then href else site.url ++ href)).1
          (c + 1) (Finset.mem_insert_self href v)
        constructor
        · simp [crawlLoop, hmem, List.countP_cons, countP_withPause, visitOf, fetchOf,
            hz.1]
        · simp [crawlLoop, hmem, List.countP_cons, countP_withPause, visitOf, fetchOf,
            hz.2]
      · have hrec := ih (insert href v) (parse http ph site i
          (if site.absolute_url then href else site.url ++ href)).1 (c + 1)
        constructor
        · simp [crawlLoop, hmem, List.countP_cons, countP_withPause, visitOf, fetchOf,
            heq, hrec.1]
        · simp [crawlLoop, hmem, List.countP_cons, countP_withPause, visitOf, fetchOf,
            heq, hrec.2]

/-- Helper for C1: once the insertion of `h` has been seen, the scan
never fails afterwards. -/
theorem visitBeforeFetch_of_seen (h : String) :
    ∀ tr : List Ev, visitBeforeFetch h true tr = true := by
  intro tr
  induction tr with
  | nil => rfl
  | cons e rest ih => cases e <;> simp [visitBeforeFetch, ih]

/-- Helper for C1: a trace without any fetch for `h` passes the scan from
any starting flag. -/
theorem visitBeforeFetch_of_no_fetch (h : String) :
    ∀ (tr : List Ev) (s : Bool),
      List.countP (fetchOf h) tr = 0 → visitBeforeFetch h s tr = true := by
  intro tr
  induction tr with
  | nil => intro s _; rfl
  | cons e rest ih =>
    intro s hz
    rw [List.countP_cons] at hz
    cases e with
    | link h' => exact ih s (by omega)
    | visit h' => simp only [visitBeforeFetch]; exact ih _ (by omega)
    | fetch h' r =>
      have hf : fetchOf h (Ev.fetch h' r) = false := by
        by_cases hb : fetchOf h (Ev.fetch h' r) = true
        · rw [hb] at hz; simp at hz
        · simpa using hb
      have hne : (h' != h) = true := by
        simpa [fetchOf, bne] using hf
      simp only [visitBeforeFetch, hne, Bool.true_and]
      exact ih s (by omega)
    | dl i p => exact ih s (by omega)
    | pause => exact ih s (by omega)

/-- Helper for C1: in every loop trace, any page fetch for a raw href is
preceded by the insertion of that raw href into the visited set. -/
theorem crawlLoop_visitBeforeFetch (http : String → HttpResp) (ph : String → Doc)
    (site : Website) (h : String) :
    ∀ (hrefs : List String) (v i : Finset String) (c : Nat),
      visitBeforeFetch h false (crawlLoop http ph site v i c hrefs).2.2 = true := by
  intro hrefs
  induction hrefs with
  | nil => intro v i c; rfl
  | cons href rest ih =>
    intro v i c
    by_cases hmem : href ∈ v
    · simp only [crawlLoop, hmem, if_true]
      simp only [visitBeforeFetch, visitBeforeFetch_withPause]
      exact ih v i (c + 1)
    · by_cases heq : href = h
      · subst heq
        simp only [crawlLoop, hmem, if_false]
        simp only [visitBeforeFetch, visitBeforeFetch_withPause, beq_self_eq_true,
          Bool.or_true, bne_self_eq_false, Bool.false_or, Bool.true_and]
        exact visitBeforeFetch_of_seen href _
      · have hne : (href == h) = false := by simpa using heq
        have hbne : (href != h) = true := by simp [bne, hne]
        simp only [crawlLoop, hmem, if_false]
        simp only [visitBeforeFetch, visitBeforeFetch_withPause, hne, hbne,
          Bool.or_false, Bool.true_and]
        exact ih (insert href v) _ (c + 1)

/-- Helper for C1: the link events of a loop trace are exactly the
enumerated raw hrefs, in order. -/
theorem crawlLoop_links (http : String → HttpResp) (ph : String → Doc) (site : Website) :
    ∀ (hrefs : List String) (v i : Finset String) (c : Nat),
      List.filterMap linkOf (crawlLoop http ph site v i c hrefs).2.2 = hrefs := by
  intro hrefs
  induction hrefs with
  | nil => intro v i c; rfl
  | cons href rest ih =>
    intro v i c
    by_cases hmem : href ∈ v
    · simp [crawlLoop, hmem, List.filterMap_cons, filterMap_withPause, linkOf, ih]
    · simp [crawlLoop, hmem, List.filterMap_cons, filterMap_withPause, linkOf, ih]

/-- Helper for C1: the loop's final visited set is the initial one
united with the raw hrefs it enumerated. -/
theorem crawlLoop_visited_eq (http : String → HttpResp) (ph : String → Doc) (site : Website) :
    ∀ (hrefs : List String) (v i : Finset String) (c : Nat),
      (crawlLoop http ph site v i c hrefs).1 = v ∪ hrefs.toFinset := by
  intro hrefs
  induction hrefs with
  | nil => intro v i c; simp [crawlLoop]
  | cons href rest ih =>
    intro v i c
    by_cases hmem : href ∈ v
    · rw [List.toFinset_cons, Finset.union_insert, Finset.insert_eq_self.mpr
        (Finset.mem_union_left _ hmem)]
      simp only [crawlLoop, hmem, if_true]
      exact ih v i (c + 1)
    · simp only [crawlLoop, hmem, if_false]
      rw [ih (insert href v) _ (c + 1), List.toFinset_cons, Finset.insert_union,
        Finset.union_insert]

/-- C1: in every crawl run, each raw href found among the seed page's
pattern-matched anchors is inserted into the visited set at most once and
fetched at most once no matter how often it occurs, the insertion happens
strictly before any page fetch for it, and the visited set collects
exactly the raw unresolved hrefs as found in markup (the initial visited
set united with the enumerated link hrefs). -/
theorem crawl_visits_once (http : String → HttpResp) (ph : String → Doc) (site : Website)
    (v i : Finset String) (out : Finset String × Finset String × List Ev)
    (hok : crawl http ph site v i = Except.ok out) :
    (∀ h : String,
      List.countP (visitOf h) out.2.2 ≤ 1 ∧
      List.countP (fetchOf h) out.2.2 ≤ 1 ∧
      visitBeforeFetch h false out.2.2 = true) ∧
    out.1 = v ∪ (List.filterMap linkOf out.2.2).toFinset := by
  unfold crawl at hok
  cases hg : get_page http ph site.url with
  | none => rw [hg] at hok; exact absurd hok (by simp)
  | some bs =>
    rw [hg] at hok
    simp only [Except.ok.injEq] at hok
    subst hok
    refine ⟨fun h => ⟨(crawlLoop_counts_le_one http ph site h _ v i 0).1,
      (crawlLoop_counts_le_one http ph site h _ v i 0).2,
      crawlLoop_visitBeforeFetch http ph site h _ v i 0⟩, ?_⟩
    rw [crawlLoop_links, crawlLoop_visited_eq]

/-- Witness for C1: on a seed page listing the raw href "a" twice, the
run inserts "a" once, fetches it once, inserts before fetching, and ends
with visited equal to the raw href set. -/
theorem crawl_visits_once_witness :
    (List.countP (visitOf "a") exTr2 ≤ 1 ∧
      List.countP (fetchOf "a") exTr2 ≤ 1 ∧
      visitBeforeFetch "a" false exTr2 = true) ∧
    (insert "a" (∅ : Finset String), (∅ : Finset String), exTr2).1 =
      ∅ ∪ (List.filterMap linkOf exTr2).toFinset := by
  refine ⟨(crawl_visits_once exHttp10 exPh2 exSiteAbs ∅ ∅ (insert "a" ∅, ∅, exTr2) rfl).1 "a",
    (crawl_visits_once exHttp10 exPh2 exSiteAbs ∅ ∅ (insert "a" ∅, ∅, exTr2) rfl).2⟩

/-
C8: session image set as a union of per-page discoveries.
-/

/-- Helper for C8: one parse step unions exactly the fetched page's
discovered image set (nothing on a failed fetch) into the accumulator. -/
theorem parse_images_union (http : String → HttpResp) (ph : String → Doc)
    (site : Website) (images : Finset String) (url : String) :
    (parse http ph site images url).1 = images ∪ pageImgs http ph url := by
  unfold parse pageImgs
  cases hg : get_page http ph url with
  | none => simp
  | some d =>
    by_cases hc : safe_get d site.title_tag ≠ "" ∧ safe_get d site.body_tag ≠ ""
    · simp [hc]
    · simp [hc]

/-- Helper for C8: the loop's accumulated image set is the initial one
united with the per-page discoveries of all fetch attempts in its trace. -/
theorem crawlLoop_images_union (http : String → HttpResp) (ph : String → Doc)
    (site : Website) :
    ∀ (hrefs : List String) (v i : Finset String) (c : Nat),
      (crawlLoop http ph site v i c hrefs).2.1 =
        i ∪ traceImgs http ph (crawlLoop http ph site v i c hrefs).2.2 := by
  intro hrefs
  induction hrefs with
  | nil => intro v i c; simp [crawlLoop, traceImgs]
  | cons href rest ih =>
    intro v i c
    by_cases hmem : href ∈ v
    · simp only [crawlLoop, hmem, if_true]
      simp only [traceImgs, traceImgs_withPause]
      exact ih v i (c + 1)
    · simp only [crawlLoop, hmem, if_false]
      simp only [traceImgs, traceImgs_withPause]
      rw [ih, parse_images_union, Finset.union_assoc]

/-- Helper for C8: re-parsing the same URL leaves the accumulated image
set unchanged. -/
theorem parse_images_idempotent (http : String → HttpResp) (ph : String → Doc)
    (site : Website) (images : Finset String) (url : String) :
    (parse http ph site (parse http ph site images url).1 url).1 =
      (parse http ph site images url).1 := by
  rw [parse_images_union, parse_images_union, Finset.union_assoc, Finset.union_self]

/-- C8: in every crawl run the session image set equals the union, with
duplicates removed, of the per-page image sets discovered on each
successfully fetched page (a failed fetch contributing nothing), and
extracting the same document again is deterministic and idempotent: a
second parse of the same URL leaves the accumulated union unchanged. -/
theorem crawl_session_images (http : String → HttpResp) (ph : String → Doc)
    (site : Website) (v i : Finset String) (hrefs : List String)
    (images : Finset String) (url : String) :
    ((crawlLoop http ph site v i 0 hrefs).2.1 =
      i ∪ traceImgs http ph (crawlLoop http ph site v i 0 hrefs).2.2) ∧
    (parse http ph site (parse http ph site images url).1 url).1 =
      (parse http ph site images url).1 :=
  ⟨crawlLoop_images_union http ph site hrefs v i 0,
    parse_images_idempotent http ph site images url⟩
